import Mathlib

/-!
# Verification of the "On a Journey" progression & accessibility engine

Shallow embedding of `src/core/business.py` (the progression engine of the
On a Journey app) and proofs of the specification claims about it.

Modelling conventions:
* Python `dict`s are modelled as association lists that preserve insertion
  order (Python 3.7+ dicts are ordered); assignment `d[k] = v` is `dictInsert`,
  which replaces an existing key in place and appends a fresh key at the end.
* Python floats are idealized as exact rationals (`ℚ`); `math.sqrt` is exact
  real square root (see `calculate_level_float` and the bridge lemma
  `calculate_level_eq_float`).
* Calendar dates are day numbers (`ℤ`); `today` is an explicit parameter.
* The `st.session_state["god_mode"]` flag is threaded as an explicit `god`
  parameter, and code paths that raise Python exceptions return `none`.
* `user["chapters"]` is keyed by `str(chapter_num)` in Python; since `str` is
  injective on integers we key by the integer itself.
-/

namespace OnAJourney

/-! ## JSON-like values

Raw journey definitions (and the free-form avatar/world blobs) are arbitrary
JSON-like Python data.  Keys of a Python dict can be strings (from JSON) or
integers (produced by the normalizer), hence `JKey`. -/

/-- A Python dict key: either a string or an integer. -/
inductive JKey where
  | s (s : String)
  | i (n : ℤ)
deriving DecidableEq

/-- JSON-like Python value (None / bool / int / str / list / dict).
Numbers are modelled as integers: every numeric field the engine reads from a
journey definition is integral. -/
inductive JVal where
  | null
  | bool (b : Bool)
  | num (n : ℤ)
  | str (s : String)
  | arr (xs : List JVal)
  | obj (kvs : List (JKey × JVal))

mutual

/-- Decidable equality for `JVal` (automatic deriving does not support this
nested inductive). -/
def JVal.decEq : (a b : JVal) → Decidable (a = b)
  | .null, .null => .isTrue rfl
  | .null, .bool _ => .isFalse nofun
  | .null, .num _ => .isFalse nofun
  | .null, .str _ => .isFalse nofun
  | .null, .arr _ => .isFalse nofun
  | .null, .obj _ => .isFalse nofun
  | .bool _, .null => .isFalse nofun
  | .bool a, .bool b =>
      if h : a = b then .isTrue (by rw [h]) else .isFalse (fun hc => by cases hc; exact h rfl)
  | .bool _, .num _ => .isFalse nofun
  | .bool _, .str _ => .isFalse nofun
  | .bool _, .arr _ => .isFalse nofun
  | .bool _, .obj _ => .isFalse nofun
  | .num _, .null => .isFalse nofun
  | .num _, .bool _ => .isFalse nofun
  | .num a, .num b =>
      if h : a = b then .isTrue (by rw [h]) else .isFalse (fun hc => by cases hc; exact h rfl)
  | .num _, .str _ => .isFalse nofun
  | .num _, .arr _ => .isFalse nofun
  | .num _, .obj _ => .isFalse nofun
  | .str _, .null => .isFalse nofun
  | .str _, .bool _ => .isFalse nofun
  | .str _, .num _ => .isFalse nofun
  | .str a, .str b =>
      if h : a = b then .isTrue (by rw [h]) else .isFalse (fun hc => by cases hc; exact h rfl)
  | .str _, .arr _ => .isFalse nofun
  | .str _, .obj _ => .isFalse nofun
  | .arr _, .null => .isFalse nofun
  | .arr _, .bool _ => .isFalse nofun
  | .arr _, .num _ => .isFalse nofun
  | .arr _, .str _ => .isFalse nofun
  | .arr xs, .arr ys =>
      match JVal.decEqList xs ys with
      | .isTrue h => .isTrue (by rw [h])
      | .isFalse h => .isFalse (fun hc => by cases hc; exact h rfl)
  | .arr _, .obj _ => .isFalse nofun
  | .obj _, .null => .isFalse nofun
  | .obj _, .bool _ => .isFalse nofun
  | .obj _, .num _ => .isFalse nofun
  | .obj _, .str _ => .isFalse nofun
  | .obj _, .arr _ => .isFalse nofun
  | .obj xs, .obj ys =>
      match JVal.decEqKvs xs ys with
      | .isTrue h => .isTrue (by rw [h])
      | .isFalse h => .isFalse (fun hc => by cases hc; exact h rfl)

/-- Decidable equality for lists of `JVal`. -/
def JVal.decEqList : (a b : List JVal) → Decidable (a = b)
  | [], [] => .isTrue rfl
  | [], _ :: _ => .isFalse nofun
  | _ :: _, [] => .isFalse nofun
  | x :: xs, y :: ys =>
      match JVal.decEq x y, JVal.decEqList xs ys with
      | .isTrue h1, .isTrue h2 => .isTrue (by rw [h1, h2])
      | .isFalse h1, _ => .isFalse (fun hc => by cases hc; exact h1 rfl)
      | _, .isFalse h2 => .isFalse (fun hc => by cases hc; exact h2 rfl)

/-- Decidable equality for `JVal` dict entry lists. -/
def JVal.decEqKvs : (a b : List (JKey × JVal)) → Decidable (a = b)
  | [], [] => .isTrue rfl
  | [], _ :: _ => .isFalse nofun
  | _ :: _, [] => .isFalse nofun
  | (k, v) :: xs, (k', v') :: ys =>
      if h0 : k = k' then
        match JVal.decEq v v', JVal.decEqKvs xs ys with
        | .isTrue h1, .isTrue h2 => .isTrue (by rw [h0, h1, h2])
        | .isFalse h1, _ => .isFalse (fun hc => by cases hc; exact h1 rfl)
        | _, .isFalse h2 => .isFalse (fun hc => by cases hc; exact h2 rfl)
      else .isFalse (fun hc => by cases hc; exact h0 rfl)

end

instance : DecidableEq JVal := JVal.decEq

/-- Python `d.get(key)` for a string key on an (insertion-ordered, unique-key)
dict: first matching binding. -/
def jget : List (JKey × JVal) → String → Option JVal
  | [], _ => none
  | (k, v) :: rest, s => if k = .s s then some v else jget rest s

/-- Python `int(x)` on a JSON value: `none` models the `TypeError`/`ValueError`
raised on non-numeric input.  (Python's `int` on strings is slightly more
lenient about surrounding whitespace than `String.toInt?`; no claim depends on
that.) -/
def pyIntJ : JVal → Option ℤ
  | .num n => some n
  | .bool b => some (if b then 1 else 0)
  | .str s => s.toInt?
  | _ => none

/-- Python `int(key)` on a dict key. -/
def pyIntK : JKey → Option ℤ
  | .s s => s.toInt?
  | .i n => some n

/-- Python dict assignment `d[k] = v`: replace an existing binding in place,
append a new one at the end. -/
def dictInsert {K V : Type} [DecidableEq K] : List (K × V) → K → V → List (K × V)
  | [], k, v => [(k, v)]
  | (k', v') :: rest, k, v =>
      if k' = k then (k, v) :: rest else (k', v') :: dictInsert rest k v

/-- Replace the element at index `i` (no-op when out of range), as Python's
`xs[i] = f(xs[i])` after a bounds check. -/
def listModify {α : Type} : List α → ℕ → (α → α) → List α
  | [], _, _ => []
  | x :: rest, 0, f => f x :: rest
  | x :: rest, n + 1, f => x :: listModify rest n f

/-- Python list indexing `xs[i]` with negative-index wraparound;
`none` models `IndexError`. -/
def pyIndex {α : Type} (xs : List α) (i : ℤ) : Option α :=
  let j := if i < 0 then i + xs.length else i
  if 0 ≤ j ∧ j < xs.length then xs.get? j.toNat else none

/-! ## Typed data model

The per-user progression state, as read and written by `business.py`.
Display-only fields that no claim inspects (images, narrative texts of the
journey) are carried where cheap and dropped where they would only be noise;
every field consulted by the embedded functions is present. -/

/-- A challenge: template fields plus the mutable `completed` flag
(ChallengeRecord / ChallengeTemplate share this shape in the source dicts). -/
structure Challenge where
  title : String
  description : String
  image : Option String
  difficulty : String
  code : String
  completed : Bool
  depends_on : List String
deriving DecidableEq

/-- A chapter of a journey definition (output of `_normalize_chapter_data`). -/
structure JourneyChapter where
  title : String
  description : String
  image : Option String
  intro : String
  challenges : List Challenge
  required_level : ℤ
  depends_on : List String
deriving DecidableEq

/-- An active journey snapshot (`user["active_journey_data"]`): chapters keyed
by integer chapter number, in Python-dict insertion order. -/
structure Journey where
  title : String
  chapters : List (ℤ × JourneyChapter)
deriving DecidableEq

/-- A per-user chapter record (`user["chapters"][str(n)]`). -/
structure ChapterRecord where
  validated : Bool
  title : String
  description : String
  image : Option String
  intro : String
  challenges : List Challenge
  required_level : ℤ
  date : ℤ
  depends_on : List String
deriving DecidableEq

/-- An unlocked achievement (`user["achievements"][id]`). -/
structure Achievement where
  id : String
  title : String
  description : String
deriving DecidableEq

/-- The persisted user record. -/
structure User where
  username : String
  salt : String
  pw_hash : String
  start_date : Option ℤ
  chapters : List (ℤ × ChapterRecord)
  active_journey_data : Option Journey
  custom_journeys : List (String × JVal)
  journey_name : Option String
  intro_shown : Bool
  avatar : List (String × JVal)
  world : List (String × JVal)
  achievements : List (String × Achievement)
  timezone : String
deriving DecidableEq

/-! ## XP & level model (`business.py` lines 144-174, 626-680) -/

/-- `DIFFICULTY_WEIGHTS.get(difficulty, 1.0)` (lines 626-634). -/
def get_challenge_weight (difficulty : String) : ℚ :=
  if difficulty = "easy" then 1
  else if difficulty = "medium" then 2
  else if difficulty = "hard" then 3
  else if difficulty = "extreme" then 4
  else 1

/-- `calculate_challenge_xp` (lines 636-651): challenge bonus of a chapter. -/
def calculate_challenge_xp (required_level : ℤ) (challenges : List Challenge) : ℚ :=
  if challenges = [] then 0
  else
    let total_weight := (challenges.map (fun ch => get_challenge_weight ch.difficulty)).sum
    if total_weight = 0 then 0
    else
      let completion_ratio :=
        (challenges.map
          (fun ch => get_challenge_weight ch.difficulty * (if ch.completed then 1 else 0))).sum
          / total_weight
      required_level * completion_ratio

/-- `get_active_journey` (lines 384-401).  The string-to-integer key coercion
it performs is the identity in this typed model. -/
def get_active_journey (u : User) : Option Journey :=
  u.active_journey_data

/-- `calculate_total_xp` (lines 653-680).  Note the source's fallback when a
validated record's chapter is missing from the journey: `required_level`
defaults to the chapter number itself (line 671). -/
def calculate_total_xp (u : User) : ℚ :=
  match get_active_journey u with
  | none => 0
  | some j =>
      (u.chapters.map (fun p =>
        if p.2.validated then
          let required_level :=
            ((List.lookup p.1 j.chapters).map (fun jc => jc.required_level)).getD p.1
          (required_level : ℚ) + calculate_challenge_xp required_level p.2.challenges
        else 0)).sum

/-- `calculate_level` (lines 144-148), in exact integer form: for `xp > 0` the
source computes `int(0.5 + 0.5 * math.sqrt(1 + (16/3) * xp))`, which (the
argument being nonnegative) equals `⌊(1 + √y)/2⌋ = (1 + ⌊√⌊y⌋⌋) / 2` for
`y = 1 + (16/3)·xp`; see `calculate_level_eq_float` for the proof that this
definition agrees with the literal floor-of-square-root formula. -/
def calculate_level (xp : ℚ) : ℤ :=
  if xp ≤ 0 then 1
  else (1 + (Nat.sqrt (⌊1 + (16 / 3 : ℚ) * xp⌋).toNat : ℤ)) / 2

/-- `calculate_level` written with the literal real-number formula of the
source, `⌊0.5 + 0.5·√(1 + (16/3)·xp)⌋` (`int` truncates toward zero, which on
this nonnegative argument is the floor). -/
noncomputable def calculate_level_float (xp : ℚ) : ℤ :=
  if xp ≤ 0 then 1
  else ⌊(0.5 : ℝ) + 0.5 * Real.sqrt (1 + (16 / 3) * (xp : ℝ))⌋

/-- `get_level_bounds` (lines 150-158); `none` models the `ValueError` raised
for `level < 1`. -/
def get_level_bounds (level : ℤ) : Option (ℚ × ℚ) :=
  if level < 1 then none
  else some ((0.75 : ℚ) * (level - 1) * level, (0.75 : ℚ) * level * (level + 1))

/-- The `"current_level"` field of `get_xp_progress` (lines 160-174), the only
field of that dict the accessibility logic consumes. -/
def get_xp_progress_current_level (u : User) : ℤ :=
  calculate_level (calculate_total_xp u)

/-! ## Commitment, accessibility, credits (lines 178-268, 473-599) -/

/-- The challenge list of the user's record for a chapter, `[]` when the record
does not exist — `chapters_data.get(str(n), {}).get("challenges", [])`. -/
def record_challenges (u : User) (chapter_num : ℤ) : List Challenge :=
  ((List.lookup chapter_num u.chapters).map (fun r => r.challenges)).getD []

/-- `get_committed_chapter_for_level` (lines 582-599): first chapter in the
journey's chapter-map iteration order at the given level whose user record has
at least one completed challenge. -/
def get_committed_chapter_for_level (u : User) (required_level : ℤ) : Option ℤ :=
  match get_active_journey u with
  | none => none
  | some j =>
      j.chapters.findSome? (fun p =>
        if p.2.required_level = required_level then
          if (record_challenges u p.1).any (fun ch => ch.completed) then some p.1 else none
        else none)

/-- `get_validated_chapter_for_level` (lines 566-580). -/
def get_validated_chapter_for_level (u : User) (required_level : ℤ) : Option ℤ :=
  match get_active_journey u with
  | none => none
  | some j =>
      j.chapters.findSome? (fun p =>
        if p.2.required_level = required_level then
          if ((List.lookup p.1 u.chapters).map (fun r => r.validated)).getD false
          then some p.1 else none
        else none)

/-- Why a chapter or challenge is (in)accessible — the `"reason"` strings. -/
inductive Reason where
  | invalid_chapter
  | insufficient_level
  | missing_achievements
  | committed_elsewhere
  | invalid_challenge
  | all_conditions_met
deriving DecidableEq

/-- Result dict of the accessibility checks.  Keys absent from a given branch's
Python dict are modelled by `none` / `[]` defaults. -/
structure AccessResult where
  accessible : Bool
  reason : Reason
  required_level : Option ℤ := none
  user_level : Option ℤ := none
  missing_achievements : List String := []
  committed_chapter : Option ℤ := none
deriving DecidableEq

/-- `is_chapter_accessible` (lines 178-231). -/
def is_chapter_accessible (u : User) (chapter_num : ℤ) : AccessResult :=
  match get_active_journey u with
  | none => { accessible := false, reason := .invalid_chapter }
  | some j =>
      match List.lookup chapter_num j.chapters with
      | none => { accessible := false, reason := .invalid_chapter }
      | some jc =>
          let user_level := get_xp_progress_current_level u
          let required_level := jc.required_level
          if user_level < required_level then
            { accessible := false, reason := .insufficient_level,
              required_level := some required_level, user_level := some user_level }
          else
            let missing := jc.depends_on.filter
              (fun a => (List.lookup a u.achievements).isNone)
            if missing ≠ [] then
              { accessible := false, reason := .missing_achievements,
                missing_achievements := missing,
                required_level := some required_level, user_level := some user_level }
            else
              let committed := get_committed_chapter_for_level u required_level
              if committed.isSome ∧ committed ≠ some chapter_num then
                { accessible := false, reason := .committed_elsewhere,
                  committed_chapter := committed,
                  required_level := some required_level, user_level := some user_level }
              else
                { accessible := true, reason := .all_conditions_met,
                  required_level := some required_level, user_level := some user_level,
                  committed_chapter := committed }

/-- `get_chapter_data` (lines 403-417). -/
def get_chapter_data (u : User) (chapter_num : ℤ) : JourneyChapter :=
  match get_active_journey u with
  | some j =>
      match List.lookup chapter_num j.chapters with
      | some jc => jc
      | none =>
          { title := s!"Chapter {chapter_num}", description := "", image := none,
            intro := "", challenges := [], required_level := 1, depends_on := [] }
  | none =>
      { title := s!"Chapter {chapter_num}", description := "", image := none,
        intro := "", challenges := [], required_level := 1, depends_on := [] }

/-- `get_chapter_record` (lines 496-532): returns the existing record, or
materializes one from the journey template (writing it into the user's chapter
map — the returned `User` is the possibly-updated one).  `none` models the
exceptions raised on the creation path when the user has no active journey
(`journey["chapters"]`, line 505) or no start date (`date.fromisoformat`,
line 506). -/
def get_chapter_record (u : User) (chapter_num : ℤ) : Option (ChapterRecord × User) :=
  match List.lookup chapter_num u.chapters with
  | some r => some (r, u)
  | none =>
      match get_active_journey u, u.start_date with
      | some j, some sd =>
          let template := get_chapter_data u chapter_num
          let jc := List.lookup chapter_num j.chapters
          let r : ChapterRecord :=
            { validated := false
              title := template.title
              description := template.description
              image := template.image
              intro := template.intro
              challenges := template.challenges.map (fun ch => { ch with completed := false })
              required_level := ((jc.map (fun c => c.required_level)).getD 1)
              date := sd + (chapter_num - 1)
              depends_on := ((jc.map (fun c => c.depends_on)).getD []) }
          some (r, { u with chapters := dictInsert u.chapters chapter_num r })
      | _, _ => none

/-- `is_challenge_accessible` (lines 233-268).  `none` models a raised
exception (record materialization failing, or `IndexError` on a negative index
below `-len`). -/
def is_challenge_accessible (u : User) (chapter_num challenge_idx : ℤ) :
    Option AccessResult :=
  let chapter_access := is_chapter_accessible u chapter_num
  if chapter_access.accessible = false then some chapter_access
  else
    match get_active_journey u, get_chapter_record u chapter_num with
    | some j, some (rec, _) =>
        let challenges := rec.challenges
        if challenge_idx ≥ challenges.length then
          some { accessible := false, reason := .invalid_challenge }
        else
          match pyIndex challenges challenge_idx with
          | none => none
          | some challenge =>
              let missing := challenge.depends_on.filter
                (fun a => (List.lookup a u.achievements).isNone)
              if missing ≠ [] then
                some { accessible := false, reason := .missing_achievements,
                       missing_achievements := missing }
              else
                match List.lookup chapter_num j.chapters with
                | none => none   -- `journey["chapters"][chapter_num]`, unreachable here
                | some jc =>
                    let committed := get_committed_chapter_for_level u jc.required_level
                    if committed.isSome ∧ committed ≠ some chapter_num then
                      some { accessible := false, reason := .committed_elsewhere }
                    else
                      some { accessible := true, reason := .all_conditions_met }
    | _, _ => none

/-- `get_validation_credits` (lines 473-494), with `today` and the god-mode
session flag as explicit parameters. -/
def get_validation_credits (god : Bool) (todayD : ℤ) (u : User) : ℤ :=
  match u.start_date with
  | none => 0
  | some sd =>
      if god then 1
      else
        let days_elapsed := todayD - sd
        let validated_count := (u.chapters.filter (fun p => p.2.validated)).length
        max 0 (days_elapsed - validated_count)

/-- Number of validated chapter records (the count inside
`get_validation_credits`, lines 486-490). -/
def validated_count (u : User) : ℤ :=
  (u.chapters.filter (fun p => p.2.validated)).length

/-! ## Progression mutators (lines 534-622) -/

/-- `update_challenge_completion` (lines 534-540).  The record-materialization
side effect of `get_chapter_record` is kept even when the index is out of
range, as in the source (the record was already added to the in-memory map). -/
def update_challenge_completion (u : User) (chapter_num challenge_idx : ℤ)
    (completed : Bool) : Option User :=
  match get_chapter_record u chapter_num with
  | none => none
  | some (rec, u') =>
      if 0 ≤ challenge_idx ∧ challenge_idx < rec.challenges.length then
        let rec' := { rec with
          challenges := listModify rec.challenges challenge_idx.toNat
            (fun ch => { ch with completed := completed }) }
        some { u' with chapters := dictInsert u'.chapters chapter_num rec' }
      else some u'

/-- `can_validate_chapter` (lines 542-564).  Returns the verdict together with
the (possibly record-materialized) user, which the in-session caller keeps. -/
def can_validate_chapter (god : Bool) (todayD : ℤ) (u : User) (chapter_num : ℤ) :
    Option (Bool × User) :=
  if (is_chapter_accessible u chapter_num).accessible = false then some (false, u)
  else
    match get_chapter_record u chapter_num with
    | none => none
    | some (rec, u') =>
        if rec.validated then some (false, u')
        else if get_validation_credits god todayD u' = 0 then some (false, u')
        else
          match get_active_journey u' with
          | none => none   -- `journey["chapters"]`, unreachable: accessibility passed
          | some j =>
              match List.lookup chapter_num j.chapters with
              | none => none   -- KeyError, unreachable: accessibility passed
              | some jc =>
                  let committed := get_committed_chapter_for_level u' jc.required_level
                  some (committed = some chapter_num, u')

/-- `validate_chapter` (lines 601-610): unconditionally marks the chapter's
record as validated.  (The journey-completion check that follows only switches
the UI view; it does not touch the user record.) -/
def validate_chapter (u : User) (chapter_num : ℤ) : Option User :=
  match get_chapter_record u chapter_num with
  | none => none
  | some (rec, u') =>
      some { u' with
        chapters := dictInsert u'.chapters chapter_num { rec with validated := true } }

/-- The validation flow as driven by the caller (`components.py` lines 477,
659-663): `validate_chapter` runs only when `can_validate_chapter` is true;
otherwise the persisted record stays as it was. -/
def validate_chapter_guarded (god : Bool) (todayD : ℤ) (u : User) (chapter_num : ℤ) :
    Option User :=
  match can_validate_chapter god todayD u chapter_num with
  | none => none
  | some (ok, u') => if ok then validate_chapter u' chapter_num else some u

/-- `reset_journey` (lines 612-622). -/
def reset_journey (u : User) : User :=
  { u with
    start_date := none
    chapters := []
    active_journey_data := none
    intro_shown := false
    avatar := []
    world := []
    achievements := [] }

/-! ## Mutator sequences (for the level-exclusivity invariant) -/

/-- A user-driven progression step: toggling a challenge or asking to validate
a chapter (the latter through the caller's `can_validate_chapter` guard). -/
inductive JourneyOp where
  | toggle (chapter idx : ℤ) (completed : Bool)
  | validate (chapter : ℤ)

/-- Apply one progression step. -/
def apply_op (god : Bool) (todayD : ℤ) (u : User) : JourneyOp → Option User
  | .toggle c i b => update_challenge_completion u c i b
  | .validate c => validate_chapter_guarded god todayD u c

/-- Run a sequence of progression steps. -/
def run_ops (god : Bool) (todayD : ℤ) : User → List JourneyOp → Option User
  | u, [] => some u
  | u, op :: rest =>
      match apply_op god todayD u op with
      | none => none
      | some u' => run_ops god todayD u' rest

/-- Number of journey chapters at a given required level whose user record is
validated. -/
def validated_at_level (u : User) (j : Journey) (lvl : ℤ) : ℕ :=
  (j.chapters.filter (fun p =>
    p.2.required_level == lvl &&
      ((List.lookup p.1 u.chapters).map (fun r => r.validated)).getD false)).length

/-! ## Spec-side formulations (used to state refinement claims) -/

/-- Claim C4's notion: chapter `n` of journey `j` sits at `lvl` and the user
has at least one completed challenge recorded in it. -/
def commits_at_level (u : User) (j : Journey) (lvl n : ℤ) : Prop :=
  ((List.lookup n j.chapters).map (fun jc => jc.required_level)) = some lvl ∧
  (record_challenges u n).any (fun ch => ch.completed) = true

instance (u : User) (j : Journey) (lvl n : ℤ) : Decidable (commits_at_level u j lvl n) :=
  inferInstanceAs (Decidable (_ ∧ _))

/-- The difficulty-weight table exactly as written in claim C7
(easy 1, medium 2, hard 3, extreme 4). -/
def spec_weight : String → ℚ
  | "easy" => 1
  | "medium" => 2
  | "hard" => 3
  | "extreme" => 4
  | _ => 0

/-- Claim C7's challenge bonus: `requiredLevel × (Σ weights of completed) /
(Σ weights of all)`, 0 when there are no challenges or total weight is 0. -/
def spec_bonus (required_level : ℤ) (chs : List Challenge) : ℚ :=
  let total := (chs.map (fun ch => spec_weight ch.difficulty)).sum
  if chs = [] ∨ total = 0 then 0
  else required_level *
    (((chs.filter (fun ch => ch.completed)).map (fun ch => spec_weight ch.difficulty)).sum
      / total)

/-- Claim C7's total XP: sum over the validated chapter records of
`requiredLevel + bonus` (required level taken from the journey chapter). -/
def spec_total_xp (u : User) (j : Journey) : ℚ :=
  ((u.chapters.filter (fun p => p.2.validated)).map (fun p =>
    let rl : ℤ :=
      ((List.lookup p.1 j.chapters).map (fun jc => jc.required_level)).getD 0
    (rl : ℚ) + spec_bonus rl p.2.challenges)).sum

/-! ## Journey catalog normalization (`normalize_journey_structure`,
lines 316-377), over raw JSON-like data -/

/-- A challenge dict as produced by `_normalize_chapter_data` (line 358-367):
every field is a pass-through JSON value; `"completed"` is always `False` in
the output and is therefore not stored (the encoder re-emits it). -/
structure NChallenge where
  title : JVal
  description : JVal
  image : JVal
  difficulty : JVal
  code : JVal
  depends_on : JVal
deriving DecidableEq

/-- A chapter dict as produced by `_normalize_chapter_data` (lines 369-377). -/
structure NChapter where
  title : JVal
  description : JVal
  image : JVal
  intro : JVal
  challenges : List NChallenge
  required_level : JVal
  depends_on : JVal
deriving DecidableEq

/-- A journey dict as produced by `normalize_journey_structure`
(lines 325-335). -/
structure NJourney where
  title : JVal
  description : JVal
  image : JVal
  intro_text : JVal
  failure_text : JVal
  success_text : JVal
  initial_avatar : JVal
  initial_world : JVal
  chapters : List (ℤ × NChapter)
deriving DecidableEq

/-- Python `for x in v`: lists yield elements, dicts yield keys, strings yield
1-character strings; anything else raises (`none`). -/
def pyIter : JVal → Option (List JVal)
  | .arr xs => some xs
  | .obj kvs => some (kvs.map (fun kv =>
      match kv.1 with
      | .s s => .str s
      | .i n => .num n))
  | .str s => some (s.data.map (fun c => .str (String.mk [c])))
  | _ => none

/-- Map a fallible function over a list, failing on the first failure (the
Python loop building the challenge list, with exceptions propagated). -/
def optionMapM {α β : Type} (f : α → Option β) : List α → Option (List β)
  | [] => some []
  | x :: xs => (f x).bind fun y => (optionMapM f xs).map fun ys => y :: ys

/-- One challenge inside `_normalize_chapter_data` (lines 358-367); a
non-dict element raises `AttributeError` on `.get` (`none`). -/
def normalize_challenge (ch : JVal) : Option NChallenge :=
  match ch with
  | .obj kvs => some
      { title := (jget kvs "title").getD (.str "Challenge")
        description := (jget kvs "description").getD (.str "")
        image := (jget kvs "image").getD .null
        difficulty := (jget kvs "difficulty").getD (.str "easy")
        code := (jget kvs "code").getD (.str "")
        depends_on := (jget kvs "depends_on").getD (.arr []) }
  | _ => none

/-- `_normalize_chapter_data` (lines 355-377), on the entries of a chapter
dict (callers only invoke it on dicts). -/
def normalize_chapter_data (cd : List (JKey × JVal)) : Option NChapter :=
  match pyIter ((jget cd "challenges").getD (.arr [])) with
  | none => none
  | some items =>
      match optionMapM normalize_challenge items with
      | none => none
      | some challenges => some
          { title := (jget cd "title").getD (.str "")
            description := (jget cd "description").getD (.str "")
            image := (jget cd "image").getD .null
            intro := (jget cd "intro").getD (.str "")
            challenges := challenges
            required_level := (jget cd "required_level").getD (.num 1)
            depends_on := (jget cd "depends_on").getD (.arr []) }

/-- The list branch of `_normalize_chapters_data` (lines 341-345):
`enumerate(raw_chapters, 1)`, non-dict items skipped, explicit
`chapter`/`day` numbers honored, `int(...)` failures raised. -/
def normChaptersFromList : ℤ → List JVal → List (ℤ × NChapter) →
    Option (List (ℤ × NChapter))
  | _, [], acc => some acc
  | i, item :: rest, acc =>
      match item with
      | .obj kvs =>
          (match pyIntJ (((jget kvs "chapter").orElse
              (fun _ => jget kvs "day")).getD (.num i)) with
          | none => none
          | some n =>
              match normalize_chapter_data kvs with
              | none => none
              | some c => normChaptersFromList (i + 1) rest (dictInsert acc n c))
      | _ => normChaptersFromList (i + 1) rest acc

/-- The dict branch of `_normalize_chapters_data` (lines 347-351): keys
coerced with `int(key)`, non-dict values skipped. -/
def normChaptersFromDict : List (JKey × JVal) → List (ℤ × NChapter) →
    Option (List (ℤ × NChapter))
  | [], acc => some acc
  | (k, item) :: rest, acc =>
      match item with
      | .obj kvs =>
          (match pyIntK k with
          | none => none
          | some n =>
              match normalize_chapter_data kvs with
              | none => none
              | some c => normChaptersFromDict rest (dictInsert acc n c))
      | _ => normChaptersFromDict rest acc

/-- `_normalize_chapters_data` (lines 337-353). -/
def normalize_chapters_data (raw : JVal) : Option (List (ℤ × NChapter)) :=
  match raw with
  | .arr items => normChaptersFromList 1 items []
  | .obj kvs => normChaptersFromDict kvs []
  | _ => some []

/-- `normalize_journey_structure` (lines 316-335); `none` models the
`ValueError` on a non-dict or title-less input and the coercion errors
propagated from chapter-number parsing. -/
def normalize_journey_structure (raw : JVal) : Option NJourney :=
  match raw with
  | .obj kvs =>
      match jget kvs "title" with
      | none => none
      | some titleV =>
          match normalize_chapters_data
            ((jget kvs "chapters").getD ((jget kvs "days").getD (.obj []))) with
          | none => none
          | some chs => some
            { title := titleV
              description := (jget kvs "description").getD (.str "")
              image := (jget kvs "image").getD .null
              intro_text := (jget kvs "intro_text").getD (.str "")
              failure_text := (jget kvs "failure_text").getD (.str "")
              success_text := (jget kvs "success_text").getD (.str "")
              initial_avatar := (jget kvs "initial_avatar").getD .null
              initial_world := (jget kvs "initial_world").getD .null
              chapters := chs }
  | _ => none

/-- The raw dict that `_normalize_chapter_data` emits for a challenge
(key order as in lines 358-367; `"completed"` is always `False`). -/
def encodeChallenge (c : NChallenge) : JVal :=
  .obj [(.s "title", c.title), (.s "description", c.description),
        (.s "image", c.image), (.s "difficulty", c.difficulty),
        (.s "code", c.code), (.s "completed", .bool false),
        (.s "depends_on", c.depends_on)]

/-- The raw dict that `_normalize_chapter_data` emits for a chapter
(key order as in lines 369-377). -/
def encodeChapter (c : NChapter) : JVal :=
  .obj [(.s "title", c.title), (.s "description", c.description),
        (.s "image", c.image), (.s "intro", c.intro),
        (.s "challenges", .arr (c.challenges.map encodeChallenge)),
        (.s "required_level", c.required_level), (.s "depends_on", c.depends_on)]

/-- The raw dict that `normalize_journey_structure` emits (key order as in
lines 325-335); feeding it back into normalization is what claim C6's
idempotence is about. -/
def encodeJourney (j : NJourney) : JVal :=
  .obj [(.s "title", j.title), (.s "description", j.description),
        (.s "image", j.image), (.s "intro_text", j.intro_text),
        (.s "failure_text", j.failure_text), (.s "success_text", j.success_text),
        (.s "initial_avatar", j.initial_avatar), (.s "initial_world", j.initial_world),
        (.s "chapters", .obj (j.chapters.map (fun p => (.i p.1, encodeChapter p.2))))]

/-! ## Concrete fixtures (small reachable states used in witnesses and
counterexamples) -/

/-- A plain easy challenge. -/
def chEasy : Challenge :=
  { title := "c", description := "", image := none, difficulty := "easy",
    code := "", completed := false, depends_on := [] }

/-- The same challenge, completed. -/
def chEasyDone : Challenge := { chEasy with completed := true }

/-- A level-1 journey chapter with one easy challenge. -/
def jchap1 : JourneyChapter :=
  { title := "A", description := "", image := none, intro := "",
    challenges := [chEasy], required_level := 1, depends_on := [] }

/-- A journey with chapters 1 and 2, both at level 1. -/
def journeyAB : Journey := { title := "J", chapters := [(1, jchap1), (2, jchap1)] }

/-- The same two chapters in reversed insertion order (as produced from a
dict-shaped definition listing chapter 2 before chapter 1). -/
def journeyBA : Journey := { title := "J", chapters := [(2, jchap1), (1, jchap1)] }

/-- A journey with a level-1 chapter, a level-2 chapter, and a level-1 chapter
gated on the `"found_key"` achievement. -/
def journeyC3 : Journey :=
  { title := "J",
    chapters := [(1, jchap1), (2, { jchap1 with required_level := 2 }),
                 (3, { jchap1 with depends_on := ["found_key"] })] }

/-- A user who started journey `j` on day 0, with chapter records `chs`. -/
def mkUser (j : Journey) (chs : List (ℤ × ChapterRecord)) : User :=
  { username := "u", salt := "s", pw_hash := "p", start_date := some 0,
    chapters := chs, active_journey_data := some j, custom_journeys := [],
    journey_name := some "J", intro_shown := true, avatar := [], world := [],
    achievements := [], timezone := "Europe/Paris" }

/-- The chapter record materialized from `jchap1` with start day 0. -/
def recBase : ChapterRecord :=
  { validated := false, title := "A", description := "", image := none,
    intro := "", challenges := [chEasy], required_level := 1, date := 0,
    depends_on := [] }

/-- C1's state: chapter 1 committed (one completed challenge) and not yet
validated, on day 0 (so zero validation credits). -/
def cu1 : User := mkUser journeyAB [(1, { recBase with challenges := [chEasyDone] })]

/-- C3's state: fresh user on `journeyC3`. -/
def cu3 : User := mkUser journeyC3 []

/-- C4's state: both chapters of the reversed-order journey hold a completed
challenge. -/
def cu4 : User :=
  mkUser journeyBA
    [(1, { recBase with challenges := [chEasyDone] }),
     (2, { recBase with challenges := [chEasyDone], date := 1 })]

/-- C5's state: fresh user who started 5 days ago. -/
def cu5a : User := mkUser journeyAB []

/-- C5's state after validating chapters 1 and 2. -/
def cu5b : User :=
  mkUser journeyAB
    [(1, { recBase with validated := true }),
     (2, { recBase with validated := true, date := 1 })]

/-- C7's state: chapter 1 validated with its (easy) challenge completed. -/
def cu7 : User :=
  mkUser journeyAB [(1, { recBase with validated := true, challenges := [chEasyDone] })]

/-- C8/C9's state: fresh user on `journeyAB`. -/
def cu8 : User := mkUser journeyAB []

/-- The record `get_chapter_record` materializes for chapter 1 of `cu8`. -/
def rec8 : ChapterRecord := recBase

/-- `cu8` after that materialization. -/
def cu8m : User := mkUser journeyAB [(1, recBase)]

/-- C9's failing operation sequence: commit and validate chapter 2, then
complete a challenge in chapter 1 (moving the derived commitment) and
validate chapter 1 as well. -/
def ops9 : List JourneyOp :=
  [.toggle 2 0 true, .validate 2, .toggle 1 0 true, .validate 1]

/-- C6's raw journey definition: a title and one list-shaped chapter with one
challenge. -/
def raw6 : JVal :=
  .obj [(.s "title", .str "T"),
        (.s "chapters", .arr [
          .obj [(.s "intro", .str "i"),
                (.s "challenges", .arr [.obj [(.s "title", .str "c1")]])]])]

/-- The challenge `raw6` normalizes to. -/
def chal6 : NChallenge :=
  { title := .str "c1", description := .str "", image := .null,
    difficulty := .str "easy", code := .str "", depends_on := .arr [] }

/-- The chapter `raw6` normalizes to. -/
def chap6 : NChapter :=
  { title := .str "", description := .str "", image := .null, intro := .str "i",
    challenges := [chal6], required_level := .num 1, depends_on := .arr [] }

/-- The journey `raw6` normalizes to. -/
def J6 : NJourney :=
  { title := .str "T", description := .str "", image := .null,
    intro_text := .str "", failure_text := .str "", success_text := .str "",
    initial_avatar := .null, initial_world := .null,
    chapters := [(1, chap6)] }

/-- C9 intermediate state: after completing chapter 2's challenge. -/
def cu9a : User :=
  mkUser journeyAB [(2, { recBase with date := 1, challenges := [chEasyDone] })]

/-- C9 intermediate state: after validating chapter 2. -/
def cu9b : User :=
  mkUser journeyAB
    [(2, { recBase with date := 1, challenges := [chEasyDone], validated := true })]

/-- C9 intermediate state: after also completing chapter 1's challenge. -/
def cu9c : User :=
  mkUser journeyAB
    [(2, { recBase with date := 1, challenges := [chEasyDone], validated := true }),
     (1, { recBase with challenges := [chEasyDone] })]

/-- C9 final state: both level-1 chapters validated. -/
def cu9d : User :=
  mkUser journeyAB
    [(2, { recBase with date := 1, challenges := [chEasyDone], validated := true }),
     (1, { recBase with challenges := [chEasyDone], validated := true })]

end OnAJourney

namespace OnAJourney

/-! ## Theorems -/

/-- Evaluation rule for `Nat.sqrt` (which does not reduce definitionally). -/
theorem nat_sqrt_eval (m t : ℕ) (h1 : t * t ≤ m) (h2 : m < (t + 1) * (t + 1)) :
    Nat.sqrt m = t :=
  le_antisymm (Nat.lt_succ_iff.mp (Nat.sqrt_lt.mpr h2)) (Nat.le_sqrt.mpr h1)

/-- Claim C10: `reset_journey` unconditionally clears `start_date`, `chapters`,
`active_journey_data`, `intro_shown`, `achievements`, `avatar` and `world`
(no accessibility precondition), and leaves `username`, credential material,
`timezone`, `custom_journeys` and `journey_name` unchanged. -/
theorem reset_journey_clears_progress_only (u : User) :
    (reset_journey u).start_date = none ∧
    (reset_journey u).chapters = [] ∧
    (reset_journey u).active_journey_data = none ∧
    (reset_journey u).intro_shown = false ∧
    (reset_journey u).achievements = [] ∧
    (reset_journey u).avatar = [] ∧
    (reset_journey u).world = [] ∧
    (reset_journey u).username = u.username ∧
    (reset_journey u).salt = u.salt ∧
    (reset_journey u).pw_hash = u.pw_hash ∧
    (reset_journey u).timezone = u.timezone ∧
    (reset_journey u).custom_journeys = u.custom_journeys ∧
    (reset_journey u).journey_name = u.journey_name :=
  ⟨rfl, rfl, rfl, rfl, rfl, rfl, rfl, rfl, rfl, rfl, rfl, rfl, rfl⟩

/-- `calculate_level` on an exact odd square argument: when
`1 + (16/3)·xp = (2L+1)²`, the level is `L + 1`. -/
theorem calculate_level_of_odd_square (L : ℤ) (hL : 0 ≤ L) (xp : ℚ)
    (hxp : ¬ xp ≤ 0) (harg : (1 : ℚ) + 16 / 3 * xp = (((2 * L + 1) ^ 2 : ℤ) : ℚ)) :
    calculate_level xp = L + 1 := by
  unfold calculate_level
  rw [if_neg hxp, harg, Int.floor_intCast]
  have hnn : (0 : ℤ) ≤ 2 * L + 1 := by omega
  have hm : ((2 * L + 1).toNat : ℤ) = 2 * L + 1 := Int.toNat_of_nonneg hnn
  have hsq : ((2 * L + 1) ^ 2 : ℤ).toNat = (2 * L + 1).toNat ^ 2 := by
    have hc : (((2 * L + 1) ^ 2 : ℤ).toNat : ℤ) = (((2 * L + 1).toNat ^ 2 : ℕ) : ℤ) := by
      rw [Int.toNat_of_nonneg (sq_nonneg _), Nat.cast_pow, hm]
    exact_mod_cast hc
  rw [hsq, Nat.sqrt_eq']
  omega

/-- The integer-arithmetic `calculate_level` agrees with the literal
floor-of-square-root formula of the source for every XP value: the embedding
is faithful to `int(0.5 + 0.5 * math.sqrt(1 + (16/3) * xp))`. -/
theorem calculate_level_eq_float (xp : ℚ) :
    calculate_level xp = calculate_level_float xp := by
  unfold calculate_level calculate_level_float
  by_cases hxp : xp ≤ 0
  · rw [if_pos hxp, if_pos hxp]
  · rw [if_neg hxp, if_neg hxp]
    have hxR : (0 : ℝ) < (xp : ℝ) := by exact_mod_cast not_le.mp hxp
    have hy1 : (1 : ℝ) ≤ 1 + 16 / 3 * (xp : ℝ) := by nlinarith
    have hy0 : (0 : ℝ) ≤ 1 + 16 / 3 * (xp : ℝ) := by linarith
    have hfloor : ⌊(1 : ℚ) + 16 / 3 * xp⌋ = ⌊(1 : ℝ) + 16 / 3 * (xp : ℝ)⌋ := by
      rw [show ((1 : ℝ) + 16 / 3 * (xp : ℝ)) = (((1 : ℚ) + 16 / 3 * xp : ℚ) : ℝ) by
        push_cast; ring]
      rw [Rat.floor_cast]
    set m : ℕ := (⌊(1 : ℚ) + 16 / 3 * xp⌋).toNat with hm
    have hflge : (1 : ℤ) ≤ ⌊(1 : ℚ) + 16 / 3 * xp⌋ := by
      rw [hfloor]
      exact Int.le_floor.mpr (by exact_mod_cast hy1)
    have hmz : (m : ℤ) = ⌊(1 : ℚ) + 16 / 3 * xp⌋ := Int.toNat_of_nonneg (by omega)
    have hmr : ((m : ℝ)) = ((⌊(1 : ℝ) + 16 / 3 * (xp : ℝ)⌋ : ℤ) : ℝ) := by
      rw [← hfloor, ← hmz]
      push_cast
      ring
    have hmy : (m : ℝ) ≤ 1 + 16 / 3 * (xp : ℝ) := by
      rw [hmr]
      exact Int.floor_le _
    have hym : (1 : ℝ) + 16 / 3 * (xp : ℝ) < (m : ℝ) + 1 := by
      have h2 := Int.lt_floor_add_one ((1 : ℝ) + 16 / 3 * (xp : ℝ))
      rw [hmr]
      exact h2
    set t : ℕ := Nat.sqrt m with ht
    have htm : (t : ℝ) ≤ Real.sqrt (1 + 16 / 3 * (xp : ℝ)) := by
      rw [Real.le_sqrt (by positivity) hy0]
      calc ((t : ℝ)) ^ 2 = ((t * t : ℕ) : ℝ) := by push_cast; ring
        _ ≤ (m : ℝ) := by exact_mod_cast Nat.sqrt_le m
        _ ≤ _ := hmy
    have htm2 : Real.sqrt (1 + 16 / 3 * (xp : ℝ)) < (t : ℝ) + 1 := by
      rw [Real.sqrt_lt' (by positivity)]
      have hsucc : m + 1 ≤ (t + 1) * (t + 1) := Nat.lt_succ_sqrt m
      calc (1 : ℝ) + 16 / 3 * (xp : ℝ) < (m : ℝ) + 1 := hym
        _ ≤ (((t + 1) * (t + 1) : ℕ) : ℝ) := by exact_mod_cast hsucc
        _ = ((t : ℝ) + 1) ^ 2 := by push_cast; ring
    symm
    rw [Int.floor_eq_iff]
    have h05 : (0.5 : ℝ) = 1 / 2 := by norm_num
    constructor
    · have hq : 2 * ((1 + (t : ℤ)) / 2) ≤ 1 + (t : ℤ) := by omega
      have hqr : ((((1 + (t : ℤ)) / 2 : ℤ)) : ℝ) ≤ (1 + (t : ℝ)) / 2 := by
        have hcast : ((2 * ((1 + (t : ℤ)) / 2) : ℤ) : ℝ) ≤ ((1 + (t : ℤ) : ℤ) : ℝ) := by
          exact_mod_cast hq
        push_cast at hcast
        linarith
      rw [h05]
      linarith [htm, hqr]
    · have hq2 : 1 + (t : ℤ) ≤ 2 * ((1 + (t : ℤ)) / 2) + 1 := by omega
      have hqr2 : (1 + (t : ℝ)) / 2 ≤ ((((1 + (t : ℤ)) / 2 : ℤ)) : ℝ) + 1 / 2 := by
        have hcast : ((1 + (t : ℤ) : ℤ) : ℝ) ≤ ((2 * ((1 + (t : ℤ)) / 2) + 1 : ℤ) : ℝ) := by
          exact_mod_cast hq2
        push_cast at hcast
        linarith
      rw [h05]
      linarith [htm2, hqr2]

/-- Claim C2: for every integer `L ≥ 1`, `get_level_bounds L` succeeds with
`(0.75·(L−1)·L, 0.75·L·(L+1))`, and `calculate_level` maps the lower bound to
`L` and the upper bound to `L + 1` (the two functions are exact inverses at
integer boundaries). -/
theorem level_bounds_inverse (L : ℤ) (hL : 1 ≤ L) :
    ∃ lo hi, get_level_bounds L = some (lo, hi) ∧
      calculate_level lo = L ∧ calculate_level hi = L + 1 := by
  have hLQ : (1 : ℚ) ≤ (L : ℚ) := by exact_mod_cast hL
  refine ⟨(0.75 : ℚ) * (L - 1) * L, (0.75 : ℚ) * L * (L + 1), ?_, ?_, ?_⟩
  · unfold get_level_bounds
    rw [if_neg (by omega)]
  · by_cases h1 : L = 1
    · subst h1
      norm_num [calculate_level]
    · have hL2 : (2 : ℚ) ≤ (L : ℚ) := by exact_mod_cast (by omega : (2:ℤ) ≤ L)
      have := calculate_level_of_odd_square (L - 1) (by omega)
        ((0.75 : ℚ) * (L - 1) * L)
        (by nlinarith)
        (by push_cast; ring)
      omega
  · have := calculate_level_of_odd_square L (by omega)
      ((0.75 : ℚ) * L * (L + 1))
      (by nlinarith)
      (by push_cast; ring)
    omega

/-- Witness for C2 at `L = 3`. -/
theorem level_bounds_inverse_witness :
    (1 : ℤ) ≤ 3 ∧ ∃ lo hi, get_level_bounds 3 = some (lo, hi) ∧
      calculate_level lo = 3 ∧ calculate_level hi = 4 :=
  ⟨by norm_num, level_bounds_inverse 3 (by norm_num)⟩

/-- Claim C5: with god mode off and a start date on record,
`get_validation_credits` is exactly `max 0 (daysElapsed − validatedCount)`. -/
theorem get_validation_credits_formula (todayD : ℤ) (u : User) (sd : ℤ)
    (h : u.start_date = some sd) :
    get_validation_credits false todayD u = max 0 (todayD - sd - validated_count u) := by
  simp [get_validation_credits, h, validated_count]

/-- Witness for C5, including the spec's scenario: start 5 days in the past
and no validated chapter gives 5 credits; after validating chapters 1 and 2,
3 credits remain. -/
theorem get_validation_credits_formula_witness :
    get_validation_credits false 5 cu5a = 5 ∧
    (validate_chapter cu5a 1).bind (fun v => validate_chapter v 2) = some cu5b ∧
    get_validation_credits false 5 cu5b = 3 :=
  ⟨(get_validation_credits_formula 5 cu5a 0 rfl).trans (by decide),
   by decide,
   (get_validation_credits_formula 5 cu5b 0 rfl).trans (by decide)⟩

/-- Claim C1 counterexample: `cu1`'s chapter 1 is accessible, not validated,
and the commitment holder, but there are zero validation credits — the
precondition fails (`can_validate_chapter` says so), yet calling
`validate_chapter` directly still changes the user record. -/
theorem validate_chapter_mutates_despite_failed_precondition :
    can_validate_chapter false 0 cu1 1 = some (false, cu1) ∧
    get_validation_credits false 0 cu1 = 0 ∧
    validate_chapter cu1 1 ≠ some cu1 := by
  have hxp : calculate_total_xp cu1 = 0 := by
    simp [calculate_total_xp, get_active_journey, cu1, mkUser, journeyAB, jchap1,
      recBase, chEasy, chEasyDone, calculate_challenge_xp, get_challenge_weight,
      List.lookup]
  have hlvl : get_xp_progress_current_level cu1 = 1 := by
    rw [get_xp_progress_current_level, hxp]
    simp [calculate_level]
  refine ⟨?_, by decide, by decide⟩
  unfold can_validate_chapter is_chapter_accessible
  simp only [hlvl]
  decide

/-- Claim C1 (amended): the preconditions live in `can_validate_chapter`, not
in `validate_chapter`: whenever any of them fails — chapter inaccessible,
record already validated, no validation credit, or the chapter is not the
commitment holder for its level — `can_validate_chapter` answers `false`, and
the guarded flow the caller uses (`validate_chapter_guarded`) leaves the
persisted user record unchanged. -/
theorem can_validate_chapter_guards (god : Bool) (t : ℤ) (u : User) (c : ℤ) :
    (∀ r, can_validate_chapter god t u c = some (false, r) →
        validate_chapter_guarded god t u c = some u)
    ∧ ((is_chapter_accessible u c).accessible = false →
        can_validate_chapter god t u c = some (false, u))
    ∧ (∀ rec u', (is_chapter_accessible u c).accessible = true →
        get_chapter_record u c = some (rec, u') →
        (rec.validated = true ∨ get_validation_credits god t u' = 0) →
        can_validate_chapter god t u c = some (false, u'))
    ∧ (∀ rec u' j jc, (is_chapter_accessible u c).accessible = true →
        get_chapter_record u c = some (rec, u') →
        rec.validated = false → get_validation_credits god t u' ≠ 0 →
        get_active_journey u' = some j → List.lookup c j.chapters = some jc →
        get_committed_chapter_for_level u' jc.required_level ≠ some c →
        can_validate_chapter god t u c = some (false, u')) := by
  refine ⟨?_, ?_, ?_, ?_⟩
  · intro r h
    unfold validate_chapter_guarded
    rw [h]
    simp
  · intro h
    unfold can_validate_chapter
    simp [h]
  · rintro rec u' hacc hrec hfail
    unfold can_validate_chapter
    rw [hacc]
    rcases hfail with hv | hcred
    · simp [hrec, hv]
    · by_cases hv : rec.validated <;> simp [hrec, hv, hcred]
  · rintro rec u' j jc hacc hrec hv hcred hj hjc hcomm
    unfold can_validate_chapter
    rw [hacc]
    simp [hrec, hv, hcred, hj, hjc, decide_eq_false hcomm]

/-- Witness for the amended C1 at `cu1` (failed credit precondition): the
guarded flow returns the user unchanged. -/
theorem can_validate_chapter_guards_witness :
    validate_chapter_guarded false 0 cu1 1 = some cu1 := by
  have hxp : calculate_total_xp cu1 = 0 := by
    simp [calculate_total_xp, get_active_journey, cu1, mkUser, journeyAB, jchap1,
      recBase, chEasy, chEasyDone, calculate_challenge_xp, get_challenge_weight,
      List.lookup]
  have hlvl : get_xp_progress_current_level cu1 = 1 := by
    rw [get_xp_progress_current_level, hxp]
    simp [calculate_level]
  refine (can_validate_chapter_guards false 0 cu1 1).1 cu1 ?_
  unfold can_validate_chapter is_chapter_accessible
  simp only [hlvl]
  decide

/-- Claim C3: `is_chapter_accessible` evaluates its gates in a fixed order and
the first failing check names the reason: `invalid_chapter` iff the chapter is
not in the active journey; then `insufficient_level` iff the user's level is
below the chapter's requirement; then `missing_achievements` iff some
dependency is absent; then `committed_elsewhere` iff a different chapter holds
the level's commitment slot; otherwise the result is accessible and reports
the commitment holder. -/
theorem is_chapter_accessible_reason_order (u : User) (c : ℤ) :
    ((is_chapter_accessible u c).reason = .invalid_chapter ↔
      ¬ ∃ j jc, get_active_journey u = some j ∧ List.lookup c j.chapters = some jc)
    ∧ (∀ j jc, get_active_journey u = some j → List.lookup c j.chapters = some jc →
      ((is_chapter_accessible u c).reason = .insufficient_level ↔
          get_xp_progress_current_level u < jc.required_level)
      ∧ ((is_chapter_accessible u c).reason = .missing_achievements ↔
          jc.required_level ≤ get_xp_progress_current_level u ∧
          ∃ a ∈ jc.depends_on, List.lookup a u.achievements = none)
      ∧ ((is_chapter_accessible u c).reason = .committed_elsewhere ↔
          jc.required_level ≤ get_xp_progress_current_level u ∧
          (¬ ∃ a ∈ jc.depends_on, List.lookup a u.achievements = none) ∧
          ∃ c', get_committed_chapter_for_level u jc.required_level = some c' ∧ c' ≠ c)
      ∧ ((is_chapter_accessible u c).accessible = true ↔
          jc.required_level ≤ get_xp_progress_current_level u ∧
          (¬ ∃ a ∈ jc.depends_on, List.lookup a u.achievements = none) ∧
          (get_committed_chapter_for_level u jc.required_level = none ∨
           get_committed_chapter_for_level u jc.required_level = some c))
      ∧ ((is_chapter_accessible u c).accessible = true →
          (is_chapter_accessible u c).reason = .all_conditions_met ∧
          (is_chapter_accessible u c).committed_chapter =
            get_committed_chapter_for_level u jc.required_level)) := by
  constructor
  · unfold is_chapter_accessible
    cases hj : get_active_journey u with
    | none => simp
    | some j =>
      cases hc : List.lookup c j.chapters with
      | none => simp [hc]
      | some jc =>
        have hex : ∃ j1 jc1, some j = some j1 ∧ List.lookup c j1.chapters = some jc1 :=
          ⟨j, jc, rfl, hc⟩
        simp only [hc]
        split_ifs <;> simp [hex] <;> exact ⟨jc, hc⟩
  · intro j jc hj hc
    have hfilter :
        (jc.depends_on.filter (fun a => (List.lookup a u.achievements).isNone) ≠ []) ↔
        ∃ a ∈ jc.depends_on, List.lookup a u.achievements = none := by
      rw [Ne, List.filter_eq_nil_iff]
      push_neg
      simp [Option.isNone_iff_eq_none]
    unfold is_chapter_accessible
    simp only [hj, hc]
    by_cases h1 : get_xp_progress_current_level u < jc.required_level
    · rw [if_pos h1]
      have h1' : ¬ jc.required_level ≤ get_xp_progress_current_level u := not_le.mpr h1
      exact ⟨iff_of_true rfl h1,
        iff_of_false nofun (fun h => h1' h.1),
        iff_of_false nofun (fun h => h1' h.1),
        iff_of_false nofun (fun h => h1' h.1),
        fun h => nomatch h⟩
    · rw [if_neg h1]
      have h1' : jc.required_level ≤ get_xp_progress_current_level u := not_lt.mp h1
      by_cases h2 :
          jc.depends_on.filter (fun a => (List.lookup a u.achievements).isNone) ≠ []
      · rw [if_pos h2]
        have hex := hfilter.mp h2
        exact ⟨iff_of_false nofun h1,
          iff_of_true rfl ⟨h1', hex⟩,
          iff_of_false nofun (fun h => h.2.1 hex),
          iff_of_false nofun (fun h => h.2.1 hex),
          fun h => nomatch h⟩
      · rw [if_neg h2]
        have hnex : ¬ ∃ a ∈ jc.depends_on, List.lookup a u.achievements = none :=
          fun hx => h2 (hfilter.mpr hx)
        by_cases h3 : (get_committed_chapter_for_level u jc.required_level).isSome ∧
            get_committed_chapter_for_level u jc.required_level ≠ some c
        · rw [if_pos h3]
          obtain ⟨c', hc'⟩ := Option.isSome_iff_exists.mp h3.1
          refine ⟨iff_of_false nofun h1,
            iff_of_false nofun (fun h => hnex h.2),
            iff_of_true rfl ⟨h1', hnex, c', hc', fun hcc => h3.2 (by rw [hc', hcc])⟩,
            ?_, fun h => nomatch h⟩
          refine iff_of_false nofun ?_
          rintro ⟨-, -, hnone | hsome⟩
          · rw [hc'] at hnone; cases hnone
          · exact absurd hsome h3.2
        · rw [if_neg h3]
          have hcases : get_committed_chapter_for_level u jc.required_level = none ∨
              get_committed_chapter_for_level u jc.required_level = some c := by
            rcases hh : get_committed_chapter_for_level u jc.required_level with _ | x
            · exact Or.inl rfl
            · right
              by_contra hne
              exact h3 ⟨by simp [hh], by rw [hh]; exact fun e => hne e⟩
          refine ⟨iff_of_false nofun h1,
            iff_of_false nofun (fun h => hnex h.2),
            ?_, iff_of_true rfl ⟨h1', hnex, hcases⟩, fun _ => ⟨rfl, rfl⟩⟩
          refine iff_of_false nofun ?_
          rintro ⟨-, -, c', hc', hne⟩
          rcases hcases with hnone | hsome
          · rw [hc'] at hnone; cases hnone
          · rw [hc'] at hsome
            exact absurd (Option.some.inj hsome) hne

/-- Witness for C3: on `cu3` (level 1), the level-2 chapter is refused with
`insufficient_level`. -/
theorem is_chapter_accessible_reason_order_witness :
    (is_chapter_accessible cu3 2).reason = .insufficient_level := by
  have hxp : calculate_total_xp cu3 = 0 := by
    simp [calculate_total_xp, get_active_journey, cu3, mkUser, journeyC3, jchap1,
      recBase, chEasy, calculate_challenge_xp, get_challenge_weight, List.lookup]
  have hlvl : get_xp_progress_current_level cu3 = 1 := by
    rw [get_xp_progress_current_level, hxp]
    simp [calculate_level]
  refine (((is_chapter_accessible_reason_order cu3 2).2 journeyC3
      { jchap1 with required_level := 2 } rfl (by decide)).1).mpr ?_
  rw [hlvl]
  decide

/-- Claim C4 counterexample: in `journeyBA` (chapter 2 listed before
chapter 1), both chapters sit at level 1 with a completed challenge; the
committed chapter is 2 (first in iteration order), not the lowest-numbered
qualifying chapter 1. -/
theorem committed_chapter_not_lowest_numbered :
    get_committed_chapter_for_level cu4 1 = some 2 ∧
    commits_at_level cu4 journeyBA 1 1 ∧ (1 : ℤ) < 2 := by decide

/-- `List.lookup` on a cons cell, with a propositional test. -/
theorem lookup_cons_ite {β : Type} (n k : ℤ) (kc : β) (tl : List (ℤ × β)) :
    List.lookup n ((k, kc) :: tl) = if n = k then some kc else List.lookup n tl := by
  by_cases h : n = k
  · simp [List.lookup, h]
  · have hb : (n == k) = false := beq_eq_false_iff_ne.mpr h
    simp [List.lookup, hb, h]

/-- A successful `List.lookup` is a membership. -/
theorem lookup_mem {β : Type} {n : ℤ} {v : β} {l : List (ℤ × β)}
    (h : List.lookup n l = some v) : (n, v) ∈ l := by
  induction l with
  | nil => cases h
  | cons p tl ih =>
      obtain ⟨k, kc⟩ := p
      rw [lookup_cons_ite] at h
      by_cases e : n = k
      · rw [if_pos e] at h
        obtain rfl := Option.some.inj h
        subst e
        exact List.mem_cons_self _ _
      · rw [if_neg e] at h
        exact List.mem_cons_of_mem _ (ih h)

/-- On an association list whose keys are strictly increasing, scanning for the
first entry satisfying `P` finds exactly the qualifying entry with the least
key (and finds nothing iff no entry qualifies). -/
theorem findSome?_key_sorted {β : Type} (P : ℤ × β → Prop) [DecidablePred P]
    (l : List (ℤ × β)) (hs : l.Pairwise (fun a b => a.1 < b.1)) :
    (∀ n, (l.findSome? (fun p => if P p then some p.1 else none) = some n ↔
      ((∃ v, List.lookup n l = some v ∧ P (n, v)) ∧
       ∀ m, (∃ v, List.lookup m l = some v ∧ P (m, v)) → n ≤ m)))
    ∧ (l.findSome? (fun p => if P p then some p.1 else none) = none ↔
       ∀ n, ¬ ∃ v, List.lookup n l = some v ∧ P (n, v)) := by
  induction l with
  | nil =>
      constructor
      · intro n; simp
      · simp
  | cons p tl ih =>
      obtain ⟨k, kc⟩ := p
      rw [List.pairwise_cons] at hs
      obtain ⟨hk, hstl⟩ := hs
      obtain ⟨ih1, ih2⟩ := ih hstl
      by_cases hp : P (k, kc)
      · have hfs : List.findSome? (fun p => if P p then some p.1 else none)
            ((k, kc) :: tl) = some k := by
          simp [List.findSome?_cons, hp]
        have hqual_k : ∃ v, List.lookup k ((k, kc) :: tl) = some v ∧ P (k, v) :=
          ⟨kc, by rw [lookup_cons_ite, if_pos rfl], hp⟩
        have hmin : ∀ m, (∃ v, List.lookup m ((k, kc) :: tl) = some v ∧ P (m, v)) →
            k ≤ m := by
          rintro m ⟨v, hv, -⟩
          rw [lookup_cons_ite] at hv
          by_cases e : m = k
          · omega
          · rw [if_neg e] at hv
            exact le_of_lt (hk _ (lookup_mem hv))
        constructor
        · intro n
          rw [hfs]
          constructor
          · intro h
            obtain rfl := Option.some.inj h
            exact ⟨hqual_k, hmin⟩
          · rintro ⟨hq, hmn⟩
            have h1 := hmin n hq
            have h2 := hmn k hqual_k
            have : n = k := le_antisymm h2 h1
            rw [this]
        · rw [hfs]
          exact iff_of_false nofun (fun hall => hall k hqual_k)
      · have hfs : List.findSome? (fun p => if P p then some p.1 else none)
            ((k, kc) :: tl) =
            List.findSome? (fun p => if P p then some p.1 else none) tl := by
          simp [List.findSome?_cons, hp]
        have hqiff : ∀ n, (∃ v, List.lookup n ((k, kc) :: tl) = some v ∧ P (n, v)) ↔
            (∃ v, List.lookup n tl = some v ∧ P (n, v)) := by
          intro n
          constructor
          · rintro ⟨v, hv, hPv⟩
            rw [lookup_cons_ite] at hv
            by_cases e : n = k
            · rw [if_pos e] at hv
              obtain rfl := Option.some.inj hv
              subst e
              exact absurd hPv hp
            · rw [if_neg e] at hv
              exact ⟨v, hv, hPv⟩
          · rintro ⟨v, hv, hPv⟩
            have hlt := hk _ (lookup_mem hv)
            refine ⟨v, ?_, hPv⟩
            rw [lookup_cons_ite, if_neg (by omega)]
            exact hv
        constructor
        · intro n
          rw [hfs, ih1 n]
          exact and_congr (hqiff n).symm
            (forall_congr' fun m => imp_congr (hqiff m).symm Iff.rfl)
        · rw [hfs, ih2]
          exact forall_congr' fun n => not_congr (hqiff n).symm

/-- Claim C4 (amended): `get_committed_chapter_for_level` returns the first
chapter in the journey's chapter-map iteration (insertion) order at the given
level with at least one completed challenge; when the chapter map is sorted by
chapter number — as produced from list-shaped journey definitions — that is
exactly the lowest-numbered qualifying chapter, and the result is `none` iff
no chapter at that level has a completed challenge. -/
theorem committed_chapter_lowest_when_sorted (u : User) (j : Journey) (lvl : ℤ)
    (hj : get_active_journey u = some j)
    (hs : j.chapters.Pairwise (fun a b => a.1 < b.1)) :
    (∀ n, get_committed_chapter_for_level u lvl = some n ↔
        (commits_at_level u j lvl n ∧ ∀ m, commits_at_level u j lvl m → n ≤ m))
    ∧ (get_committed_chapter_for_level u lvl = none ↔
        ∀ n, ¬ commits_at_level u j lvl n) := by
  have hshape : get_committed_chapter_for_level u lvl =
      j.chapters.findSome? (fun p =>
        if p.2.required_level = lvl ∧
            (record_challenges u p.1).any (fun ch => ch.completed) = true
        then some p.1 else none) := by
    unfold get_committed_chapter_for_level
    simp only [hj]
    congr 1
    funext p
    by_cases h1 : p.2.required_level = lvl
    · by_cases h2 : (record_challenges u p.1).any (fun ch => ch.completed) = true
      · simp [h1, h2]
      · simp [h1, h2]
    · simp [h1]
  have hq : ∀ n, (∃ v, List.lookup n j.chapters = some v ∧
      (v.required_level = lvl ∧
        (record_challenges u n).any (fun ch => ch.completed) = true)) ↔
      commits_at_level u j lvl n := by
    intro n
    unfold commits_at_level
    constructor
    · rintro ⟨v, hv, h1, h2⟩
      exact ⟨by rw [hv]; simp [h1], h2⟩
    · rintro ⟨h1, h2⟩
      rcases hl : List.lookup n j.chapters with _ | v
      · rw [hl] at h1; cases h1
      · rw [hl] at h1
        exact ⟨v, rfl, by simpa using h1, h2⟩
  obtain ⟨k1, k2⟩ := findSome?_key_sorted
    (fun p => p.2.required_level = lvl ∧
      (record_challenges u p.1).any (fun ch => ch.completed) = true) j.chapters hs
  constructor
  · intro n
    rw [hshape, k1 n]
    exact and_congr (hq n) (forall_congr' fun m => imp_congr (hq m) Iff.rfl)
  · rw [hshape, k2]
    exact forall_congr' fun n => not_congr (hq n)

/-- Witness for the amended C4 on the sorted journey `journeyAB`: the
committed chapter for level 1 of `cu1` is chapter 1, the least qualifying
chapter. -/
theorem committed_chapter_lowest_when_sorted_witness :
    get_committed_chapter_for_level cu1 1 = some 1 := by
  refine ((committed_chapter_lowest_when_sorted cu1 journeyAB 1 rfl
    (by decide)).1 1).mpr ⟨by decide, ?_⟩
  rintro m ⟨hm, -⟩
  by_cases e1 : m = 1
  · omega
  · by_cases e2 : m = 2
    · omega
    · exfalso
      rw [show journeyAB.chapters = [(1, jchap1), (2, jchap1)] from rfl,
        lookup_cons_ite, if_neg e1, lookup_cons_ite, if_neg e2] at hm
      cases hm

/-- Claim C8 counterexample: chapter 1 of `cu8` is accessible and has one
challenge; the out-of-list index `-1` is not rejected as `invalid_challenge`
— Python indexing wraps it to the last challenge and the check succeeds. -/
theorem negative_index_not_invalid_challenge :
    (is_chapter_accessible cu8 1).accessible = true ∧
    (is_challenge_accessible cu8 1 (-1)).map (fun r => r.reason) =
      some .all_conditions_met := by
  have hxp : calculate_total_xp cu8 = 0 := by
    simp [calculate_total_xp, get_active_journey, cu8, mkUser, journeyAB, jchap1,
      recBase, chEasy, calculate_challenge_xp, get_challenge_weight, List.lookup]
  have hlvl : get_xp_progress_current_level cu8 = 1 := by
    rw [get_xp_progress_current_level, hxp]
    simp [calculate_level]
  constructor
  · unfold is_chapter_accessible
    simp only [hlvl]
    decide
  · unfold is_challenge_accessible is_chapter_accessible
    simp only [hlvl]
    decide

/-- An accessible chapter exists in the active journey. -/
theorem accessible_chapter_exists (u : User) (c : ℤ)
    (h : (is_chapter_accessible u c).accessible = true) :
    ∃ j jc, get_active_journey u = some j ∧ List.lookup c j.chapters = some jc := by
  unfold is_chapter_accessible at h
  rcases hj : get_active_journey u with _ | j
  · simp [hj] at h
  · rcases hc : List.lookup c j.chapters with _ | jc
    · simp [hj, hc] at h
    · exact ⟨j, jc, rfl, hc⟩

/-- Python negative indexing: for `-len ≤ i < 0`, `xs[i]` is `xs[i + len]`. -/
theorem pyIndex_neg {α : Type} (xs : List α) (i : ℤ)
    (h1 : -(xs.length : ℤ) ≤ i) (h2 : i < 0) :
    pyIndex xs i = pyIndex xs (i + xs.length) := by
  simp only [pyIndex]
  rw [if_pos h2, if_neg (show ¬ i + (xs.length : ℤ) < 0 by omega)]

/-- Claim C8 (amended): with the chapter accessible, `is_challenge_accessible`
answers `invalid_challenge` exactly for indices `≥` the length of the
chapter's challenge list; a negative index `-len ≤ idx < 0` is interpreted
Python-style from the end of the list (it behaves as `idx + len`), and an
index `< -len` raises (`none`). -/
theorem invalid_challenge_exact (u : User) (c idx : ℤ) (rec : ChapterRecord)
    (u' : User) (hacc : (is_chapter_accessible u c).accessible = true)
    (hrec : get_chapter_record u c = some (rec, u')) :
    (idx ≥ (rec.challenges.length : ℤ) → is_challenge_accessible u c idx =
        some { accessible := false, reason := .invalid_challenge })
    ∧ (idx < -(rec.challenges.length : ℤ) → is_challenge_accessible u c idx = none)
    ∧ (-(rec.challenges.length : ℤ) ≤ idx → idx < 0 →
        is_challenge_accessible u c idx =
          is_challenge_accessible u c (idx + rec.challenges.length)) := by
  obtain ⟨j, jc, hj, hjc⟩ := accessible_chapter_exists u c hacc
  have hne : ¬ ((is_chapter_accessible u c).accessible = false) := by simp [hacc]
  have hlen : (0 : ℤ) ≤ (rec.challenges.length : ℤ) := Int.natCast_nonneg _
  refine ⟨?_, ?_, ?_⟩
  · intro h
    unfold is_challenge_accessible
    rw [if_neg hne]
    simp only [hj, hrec]
    rw [if_pos h]
  · intro h
    unfold is_challenge_accessible
    rw [if_neg hne]
    simp only [hj, hrec]
    rw [if_neg (show ¬ idx ≥ (rec.challenges.length : ℤ) by omega)]
    have hnone : pyIndex rec.challenges idx = none := by
      simp only [pyIndex]
      rw [if_pos (show idx < 0 by omega),
        if_neg (show ¬ (0 ≤ idx + (rec.challenges.length : ℤ) ∧
          idx + (rec.challenges.length : ℤ) < (rec.challenges.length : ℤ)) by omega)]
    rw [hnone]
  · intro h1 h2
    unfold is_challenge_accessible
    simp only [if_neg hne, hj, hrec]
    rw [if_neg (show ¬ idx ≥ (rec.challenges.length : ℤ) by omega),
      if_neg (show ¬ idx + (rec.challenges.length : ℤ) ≥ (rec.challenges.length : ℤ)
        by omega),
      pyIndex_neg rec.challenges idx h1 h2]

/-- Witness for the amended C8: on `cu8`'s accessible chapter 1 (one
challenge), index 5 is rejected as `invalid_challenge`. -/
theorem invalid_challenge_exact_witness :
    is_challenge_accessible cu8 1 5 =
      some { accessible := false, reason := .invalid_challenge } := by
  have hxp : calculate_total_xp cu8 = 0 := by
    simp [calculate_total_xp, get_active_journey, cu8, mkUser, journeyAB, jchap1,
      recBase, chEasy, calculate_challenge_xp, get_challenge_weight, List.lookup]
  have hlvl : get_xp_progress_current_level cu8 = 1 := by
    rw [get_xp_progress_current_level, hxp]
    simp [calculate_level]
  have hacc : (is_chapter_accessible cu8 1).accessible = true := by
    unfold is_chapter_accessible
    simp only [hlvl]
    decide
  exact (invalid_challenge_exact cu8 1 5 rec8 cu8m hacc (by decide)).1 (by decide)

/-- The sum of difficulty weights over completed challenges, written with an
explicit completion indicator, equals the sum over the filtered list. -/
theorem sum_weight_completed (w : String → ℚ) (chs : List Challenge) :
    (chs.map (fun ch => w ch.difficulty * (if ch.completed then (1 : ℚ) else 0))).sum =
    ((chs.filter (fun ch => ch.completed)).map (fun ch => w ch.difficulty)).sum := by
  induction chs with
  | nil => rfl
  | cons ch tl ih =>
      simp only [mul_ite, mul_one, mul_zero] at ih ⊢
      by_cases hc : ch.completed = true <;>
        simp [List.filter_cons, hc, ih]

/-- On the four documented difficulties the code's weight table and the
claim's weight table agree. -/
theorem weight_agree (d : String)
    (hd : d = "easy" ∨ d = "medium" ∨ d = "hard" ∨ d = "extreme") :
    get_challenge_weight d = spec_weight d := by
  rcases hd with rfl | rfl | rfl | rfl <;> rfl

/-- `calculate_challenge_xp` equals the claim's bonus formula whenever every
challenge difficulty is one of the four documented values. -/
theorem challenge_xp_eq_spec_bonus (rl : ℤ) (chs : List Challenge)
    (hd : ∀ ch ∈ chs, ch.difficulty = "easy" ∨ ch.difficulty = "medium" ∨
      ch.difficulty = "hard" ∨ ch.difficulty = "extreme") :
    calculate_challenge_xp rl chs = spec_bonus rl chs := by
  unfold calculate_challenge_xp spec_bonus
  have hmap : chs.map (fun ch => spec_weight ch.difficulty) =
      chs.map (fun ch => get_challenge_weight ch.difficulty) :=
    List.map_congr_left fun ch hch => (weight_agree ch.difficulty (hd ch hch)).symm
  have hmapf : (chs.filter (fun ch => ch.completed)).map
        (fun ch => spec_weight ch.difficulty) =
      (chs.filter (fun ch => ch.completed)).map
        (fun ch => get_challenge_weight ch.difficulty) :=
    List.map_congr_left fun ch hch =>
      (weight_agree ch.difficulty (hd ch (List.mem_of_mem_filter hch))).symm
  by_cases h0 : chs = []
  · simp [h0]
  · rw [if_neg h0]
    rw [hmap]
    by_cases hw : (chs.map (fun ch => get_challenge_weight ch.difficulty)).sum = 0
    · rw [if_pos hw, if_pos (Or.inr hw)]
    · rw [if_neg hw, if_neg (by push_neg; exact ⟨h0, hw⟩)]
      rw [hmapf, sum_weight_completed]

/-- Sum form of `calculate_total_xp` versus the claim's filtered sum, over an
arbitrary chapter-record list. -/
theorem total_xp_spec_aux (j : Journey) (l : List (ℤ × ChapterRecord))
    (hmem : ∀ p ∈ l, p.2.validated = true → (List.lookup p.1 j.chapters).isSome)
    (hd : ∀ p ∈ l, p.2.validated = true → ∀ ch ∈ p.2.challenges,
      ch.difficulty = "easy" ∨ ch.difficulty = "medium" ∨
      ch.difficulty = "hard" ∨ ch.difficulty = "extreme") :
    (l.map (fun p =>
      if p.2.validated then
        let required_level :=
          ((List.lookup p.1 j.chapters).map (fun jc => jc.required_level)).getD p.1
        (required_level : ℚ) + calculate_challenge_xp required_level p.2.challenges
      else 0)).sum =
    ((l.filter (fun p => p.2.validated)).map (fun p =>
      let rl : ℤ :=
        ((List.lookup p.1 j.chapters).map (fun jc => jc.required_level)).getD 0
      (rl : ℚ) + spec_bonus rl p.2.challenges)).sum := by
  induction l with
  | nil => rfl
  | cons p tl ih =>
      have hmem' := fun q hq => hmem q (List.mem_cons_of_mem p hq)
      have hd' := fun q hq => hd q (List.mem_cons_of_mem p hq)
      have ih' := ih hmem' hd'
      by_cases hv : p.2.validated = true
      · obtain ⟨jc, hjc⟩ :=
          Option.isSome_iff_exists.mp (hmem p (List.mem_cons_self p tl) hv)
        have hbonus := challenge_xp_eq_spec_bonus jc.required_level p.2.challenges
          (hd p (List.mem_cons_self p tl) hv)
        simp only [List.map_cons, List.sum_cons, List.filter_cons, hv, if_true,
          hjc, Option.map_some', Option.getD_some, List.map_cons, List.sum_cons]
        rw [ih', hbonus]
      · simp only [List.map_cons, List.sum_cons, List.filter_cons, hv, if_false,
          Bool.false_eq_true, zero_add]
        exact ih'

/-- Claim C7: with an active journey, if every validated chapter record refers
to a journey chapter and all difficulties are among the four documented ones,
`calculate_total_xp` is exactly the claim's formula: the sum over validated
chapter records of `requiredLevel + bonus`; unvalidated records contribute
nothing. -/
theorem calculate_total_xp_eq_spec (u : User) (j : Journey)
    (hj : get_active_journey u = some j)
    (hmem : ∀ p ∈ u.chapters, p.2.validated = true →
      (List.lookup p.1 j.chapters).isSome)
    (hd : ∀ p ∈ u.chapters, p.2.validated = true → ∀ ch ∈ p.2.challenges,
      ch.difficulty = "easy" ∨ ch.difficulty = "medium" ∨
      ch.difficulty = "hard" ∨ ch.difficulty = "extreme") :
    calculate_total_xp u = spec_total_xp u j := by
  unfold calculate_total_xp spec_total_xp
  simp only [hj]
  exact total_xp_spec_aux j u.chapters hmem hd

/-- Witness for C7 on `cu7`: one validated chapter at level 1 with its easy
challenge completed. -/
theorem calculate_total_xp_eq_spec_witness :
    calculate_total_xp cu7 = spec_total_xp cu7 journeyAB :=
  calculate_total_xp_eq_spec cu7 journeyAB rfl (by decide) (by decide)

/-- Re-normalizing an emitted challenge dict reproduces the challenge. -/
theorem normalize_challenge_encode (ch : NChallenge) :
    normalize_challenge (encodeChallenge ch) = some ch := by
  cases ch
  rfl

/-- Re-normalizing a list of emitted challenge dicts reproduces the list. -/
theorem mapM_normalize_challenge (l : List NChallenge) :
    optionMapM normalize_challenge (l.map encodeChallenge) = some l := by
  induction l with
  | nil => rfl
  | cons c tl ih =>
      simp [List.map_cons, optionMapM, normalize_challenge_encode, ih]

/-- Re-normalizing an emitted chapter dict reproduces the chapter. -/
theorem normalize_chapter_encode (c : NChapter) :
    normalize_chapter_data
      [(JKey.s "title", c.title), (JKey.s "description", c.description),
       (JKey.s "image", c.image), (JKey.s "intro", c.intro),
       (JKey.s "challenges", JVal.arr (c.challenges.map encodeChallenge)),
       (JKey.s "required_level", c.required_level),
       (JKey.s "depends_on", c.depends_on)] = some c := by
  cases c with
  | mk t d i it chs rl dep =>
      simp [normalize_chapter_data, jget, pyIter, mapM_normalize_challenge]

/-- Inserting a fresh key appends at the end. -/
theorem dictInsert_append {K V : Type} [DecidableEq K] (l : List (K × V)) (k : K)
    (v : V) (h : k ∉ l.map Prod.fst) : dictInsert l k v = l ++ [(k, v)] := by
  induction l with
  | nil => rfl
  | cons p tl ih =>
      obtain ⟨k', v'⟩ := p
      have hne : k' ≠ k := fun e => h (by simp [e])
      rw [dictInsert, if_neg hne, ih (fun hm => h (by simp [hm]))]
      rfl

/-- Every key after a `dictInsert` is an old key or the inserted one. -/
theorem dictInsert_keys_subset {K V : Type} [DecidableEq K] (l : List (K × V))
    (k : K) (v : V) :
    ∀ x ∈ (dictInsert l k v).map Prod.fst, x ∈ l.map Prod.fst ∨ x = k := by
  induction l with
  | nil =>
      intro x hx
      simp [dictInsert] at hx
      exact Or.inr hx
  | cons p tl ih =>
      obtain ⟨k', v'⟩ := p
      intro x hx
      by_cases e : k' = k
      · rw [dictInsert, if_pos e, List.map_cons] at hx
        rcases List.mem_cons.mp hx with h1 | h1
        · exact Or.inr h1
        · exact Or.inl (by simp [h1])
      · rw [dictInsert, if_neg e, List.map_cons] at hx
        rcases List.mem_cons.mp hx with h1 | h1
        · exact Or.inl (by simp [h1])
        · rcases ih x h1 with h2 | h2
          · exact Or.inl (by simp [h2])
          · exact Or.inr h2

/-- `dictInsert` preserves distinctness of keys. -/
theorem dictInsert_keys_nodup {K V : Type} [DecidableEq K] (l : List (K × V))
    (k : K) (v : V) (h : (l.map Prod.fst).Nodup) :
    ((dictInsert l k v).map Prod.fst).Nodup := by
  induction l with
  | nil => simp [dictInsert]
  | cons p tl ih =>
      obtain ⟨k', v'⟩ := p
      rw [List.map_cons, List.nodup_cons] at h
      by_cases e : k' = k
      · rw [dictInsert, if_pos e]
        subst e
        simpa using h
      · rw [dictInsert, if_neg e]
        rw [List.map_cons, List.nodup_cons]
        refine ⟨?_, ih h.2⟩
        intro hx
        rcases dictInsert_keys_subset tl k v k' hx with h1 | h2
        · exact h.1 h1
        · exact e h2

/-- The chapter maps built by the dict branch of the normalizer have distinct
keys. -/
theorem normChaptersFromDict_nodup :
    ∀ (kvs : List (JKey × JVal)) (acc res : List (ℤ × NChapter)),
      (acc.map Prod.fst).Nodup →
      normChaptersFromDict kvs acc = some res → (res.map Prod.fst).Nodup := by
  intro kvs
  induction kvs with
  | nil =>
      intro acc res h hr
      simp only [normChaptersFromDict] at hr
      obtain rfl := Option.some.inj hr
      exact h
  | cons p rest ih =>
      intro acc res h hr
      obtain ⟨k, item⟩ := p
      rcases item with _ | b | m | st | xs | kvs'
      · exact ih acc res h (by simpa [normChaptersFromDict] using hr)
      · exact ih acc res h (by simpa [normChaptersFromDict] using hr)
      · exact ih acc res h (by simpa [normChaptersFromDict] using hr)
      · exact ih acc res h (by simpa [normChaptersFromDict] using hr)
      · exact ih acc res h (by simpa [normChaptersFromDict] using hr)
      · simp only [normChaptersFromDict] at hr
        rcases hn : pyIntK k with _ | n
        · rw [hn] at hr; simp at hr
        · rw [hn] at hr
          rcases hc : normalize_chapter_data kvs' with _ | c
          · rw [hc] at hr; simp at hr
          · rw [hc] at hr
            simp only [Option.some_bind] at hr
            exact ih _ res (dictInsert_keys_nodup acc n c h) hr

/-- Likewise for the list branch. -/
theorem normChaptersFromList_nodup :
    ∀ (items : List JVal) (i : ℤ) (acc res : List (ℤ × NChapter)),
      (acc.map Prod.fst).Nodup →
      normChaptersFromList i items acc = some res → (res.map Prod.fst).Nodup := by
  intro items
  induction items with
  | nil =>
      intro i acc res h hr
      simp only [normChaptersFromList] at hr
      obtain rfl := Option.some.inj hr
      exact h
  | cons item rest ih =>
      intro i acc res h hr
      rcases item with _ | b | m | st | xs | kvs'
      · exact ih _ acc res h (by simpa [normChaptersFromList] using hr)
      · exact ih _ acc res h (by simpa [normChaptersFromList] using hr)
      · exact ih _ acc res h (by simpa [normChaptersFromList] using hr)
      · exact ih _ acc res h (by simpa [normChaptersFromList] using hr)
      · exact ih _ acc res h (by simpa [normChaptersFromList] using hr)
      · simp only [normChaptersFromList] at hr
        rcases hn : pyIntJ (((jget kvs' "chapter").orElse
            (fun _ => jget kvs' "day")).getD (.num i)) with _ | n
        · rw [hn] at hr; simp at hr
        · rw [hn] at hr
          rcases hc : normalize_chapter_data kvs' with _ | c
          · rw [hc] at hr; simp at hr
          · rw [hc] at hr
            simp only [Option.some_bind] at hr
            exact ih _ _ res (dictInsert_keys_nodup acc n c h) hr

/-- Any chapter map produced by `normalize_chapters_data` has distinct keys. -/
theorem normalize_chapters_data_nodup (raw : JVal) (res : List (ℤ × NChapter))
    (h : normalize_chapters_data raw = some res) : (res.map Prod.fst).Nodup := by
  rcases raw with _ | b | m | st | xs | kvs
  · obtain rfl := Option.some.inj h; exact List.nodup_nil
  · obtain rfl := Option.some.inj h; exact List.nodup_nil
  · obtain rfl := Option.some.inj h; exact List.nodup_nil
  · obtain rfl := Option.some.inj h; exact List.nodup_nil
  · exact normChaptersFromList_nodup xs 1 [] res List.nodup_nil h
  · exact normChaptersFromDict_nodup kvs [] res List.nodup_nil h

/-- One step of re-normalizing an emitted chapter map. -/
theorem normChaptersFromDict_cons_encode (n : ℤ) (c : NChapter)
    (rest : List (JKey × JVal)) (acc : List (ℤ × NChapter)) :
    normChaptersFromDict ((JKey.i n, encodeChapter c) :: rest) acc =
      normChaptersFromDict rest (dictInsert acc n c) := by
  simp only [encodeChapter, normChaptersFromDict, pyIntK, normalize_chapter_encode]

/-- Re-normalizing an emitted (distinct-key) chapter map reproduces it. -/
theorem normChaptersFromDict_encode (l : List (ℤ × NChapter)) :
    ∀ acc : List (ℤ × NChapter), ((acc ++ l).map Prod.fst).Nodup →
      normChaptersFromDict (l.map (fun p => (JKey.i p.1, encodeChapter p.2))) acc =
        some (acc ++ l) := by
  induction l with
  | nil => intro acc h; simp [normChaptersFromDict]
  | cons p tl ih =>
      intro acc h
      obtain ⟨n, c⟩ := p
      have hn : n ∉ acc.map Prod.fst := by
        rw [List.map_append] at h
        have hd := (List.nodup_append.mp h).2.2
        intro hmem
        exact hd hmem (by simp)
      have h' : ((acc ++ [(n, c)] ++ tl).map Prod.fst).Nodup := by
        simpa [List.append_assoc] using h
      rw [List.map_cons, normChaptersFromDict_cons_encode,
        dictInsert_append acc n c hn, ih _ h']
      simp

/-- Claim C6: `normalize_journey_structure` is idempotent — re-normalizing the
raw dict it emits (via `encodeJourney`) returns the same normalized journey,
structurally equal. -/
theorem normalize_journey_structure_idempotent (raw : JVal) (J : NJourney)
    (h : normalize_journey_structure raw = some J) :
    normalize_journey_structure (encodeJourney J) = some J := by
  have hnodup : (J.chapters.map Prod.fst).Nodup := by
    rcases raw with _ | b | m | st | xs | kvs
    · cases h
    · cases h
    · cases h
    · cases h
    · cases h
    · rcases ht : jget kvs "title" with _ | tv
      · exact absurd h (by simp [normalize_journey_structure, ht])
      · rcases hc : normalize_chapters_data
            ((jget kvs "chapters").getD ((jget kvs "days").getD (.obj []))) with _ | chs
        · exact absurd h (by simp [normalize_journey_structure, ht, hc])
        · simp only [normalize_journey_structure, ht, hc] at h
          obtain rfl := Option.some.inj h
          exact normalize_chapters_data_nodup _ _ hc
  cases J with
  | mk t d i itx ft st ia iw chs =>
      have hrt := normChaptersFromDict_encode chs []
        (by simpa using hnodup)
      unfold normalize_journey_structure encodeJourney
      simp [jget, normalize_chapters_data, hrt]

/-- Witness for C6 at `raw6`: normalization succeeds and re-normalizing the
emitted structure is the identity. -/
theorem normalize_journey_structure_idempotent_witness :
    normalize_journey_structure (encodeJourney J6) = some J6 :=
  normalize_journey_structure_idempotent raw6 J6 (by rfl)

/-- Claim C9: executing `ops9` (all through the guarded operations the UI
uses) from the fresh state `cu9 = cu8` on day 2 ends with two validated
chapters at required level 1 — the level-exclusivity invariant fails. -/
theorem level_exclusivity_violated :
    ((run_ops false 2 cu8 ops9).map
      (fun v => validated_at_level v journeyAB 1)).getD 0 = 2 := by
  have h1 : apply_op false 2 cu8 (JourneyOp.toggle 2 0 true) = some cu9a := by decide
  have hxp2 : calculate_total_xp cu9a = 0 := by
    simp [calculate_total_xp, get_active_journey, cu9a, mkUser, journeyAB, jchap1,
      recBase, chEasy, chEasyDone, calculate_challenge_xp, get_challenge_weight,
      List.lookup]
  have hlvl2 : get_xp_progress_current_level cu9a = 1 := by
    rw [get_xp_progress_current_level, hxp2]
    simp [calculate_level]
  have h2 : apply_op false 2 cu9a (JourneyOp.validate 2) = some cu9b := by
    simp only [apply_op]
    unfold validate_chapter_guarded can_validate_chapter is_chapter_accessible
    simp only [hlvl2]
    decide
  have h3 : apply_op false 2 cu9b (JourneyOp.toggle 1 0 true) = some cu9c := by decide
  have hxp1 : calculate_total_xp cu9c = 2 := by
    simp [calculate_total_xp, get_active_journey, cu9c, mkUser, journeyAB, jchap1,
      recBase, chEasy, chEasyDone, calculate_challenge_xp, get_challenge_weight,
      List.lookup]
    norm_num
  have hlvl1 : get_xp_progress_current_level cu9c = 2 := by
    rw [get_xp_progress_current_level, hxp1]
    unfold calculate_level
    rw [if_neg (by norm_num)]
    rw [show ⌊(1 : ℚ) + 16 / 3 * 2⌋ = 11 from by norm_num]
    rw [show (11 : ℤ).toNat = 11 from rfl,
      nat_sqrt_eval 11 3 (by norm_num) (by norm_num)]
    norm_num
  have h4 : apply_op false 2 cu9c (JourneyOp.validate 1) = some cu9d := by
    simp only [apply_op]
    unfold validate_chapter_guarded can_validate_chapter is_chapter_accessible
    simp only [hlvl1]
    decide
  simp only [ops9, run_ops, h1, h2, h3, h4]
  decide

end OnAJourney
